import Mathlib

/-!
Shallow embedding of the deployment-step resource handlers of the
terraform-provider-octopusdeploy repository.

The embedding follows the Go sources:
* `octopusdeploy/resource_deployment_step.go` — generic create/read/update/delete
  handlers and the positional step-splice loops (the before/after variant);
* `octopusdeploy/resource_deployment_step_iis_website.go` — the IIS-website
  step builder/setter, including the binding flattening;
* the companion revision of the shared file (script and application-pool
  property-bag builders and setters).

Go maps `map[string]string` are embedded as association lists observed only
through lookup; Go slices as `List`; fallible client calls as `Except`.
-/

namespace OctopusDeploy

/-- Flat string-keyed property bag (Go `map[string]string`), represented as an
association list with replace-or-add assignment. -/
abbrev Props := List (String × String)

/-- Go map read `v, ok := m[k]`: `none` when the key is absent. -/
def propsGet (ps : Props) (k : String) : Option String :=
  (ps.find? (fun kv => kv.1 == k)).map (fun kv => kv.2)

/-- Go map assignment `m[k] = v`: replace the binding if the key is present,
otherwise add it. -/
def propsSet (ps : Props) (k v : String) : Props :=
  if ps.any (fun kv => kv.1 == k) then
    ps.map (fun kv => if kv.1 == k then (k, v) else kv)
  else
    ps ++ [(k, v)]

/-- Go `m[k] += s` on a string-valued map: a missing key reads as `""`. -/
def propsAppend (ps : Props) (k s : String) : Props :=
  propsSet ps k (((propsGet ps k).getD "") ++ s)

/-- One element of the `octopusdeploy.DeploymentStep.Actions` slice; only the
fields the handlers touch are carried. -/
structure DeploymentAction where
  Name : String := ""
  IsRequired : Bool := false
  ActionType : String := ""
  Properties : Props := []
deriving DecidableEq

/-- The `octopusdeploy.DeploymentStep` client-library struct, restricted to the
fields the provider reads or writes. -/
structure DeploymentStep where
  ID : String := ""
  Name : String := ""
  PackageRequirement : String := ""
  Condition : String := ""
  StartTrigger : String := ""
  Properties : Props := []
  Actions : List DeploymentAction := []
deriving DecidableEq

instance : Inhabited DeploymentStep := ⟨{}⟩

/-- Go `deploymentStep.Actions[0].Properties`; the builders always create
exactly one action, the default action is only a total-function guard. -/
def DeploymentStep.action0Props (s : DeploymentStep) : Props :=
  (s.Actions.headD {}).Properties

/-- Loop of `resourceDeploymentStepCreate` (resource_deployment_step.go,
lines 167-180): one pass over the original steps, inserting the new step
before the first step whose `ID` equals `beforeStepId`, or after the first
step whose `ID` equals `afterStepId`, tracking `newStepAddedIndex`
(`none` embeds Go's `-1`). -/
def createStepLoop (newStep : DeploymentStep) (beforeStepId afterStepId : String) :
    List DeploymentStep → Nat → Option Nat → List DeploymentStep × Option Nat
  | [], _, idx => ([], idx)
  | org :: rest, i, idx =>
    if idx.isNone && org.ID == beforeStepId then
      let r := createStepLoop newStep beforeStepId afterStepId rest (i + 1) (some i)
      (newStep :: org :: r.1, r.2)
    else if idx.isNone && org.ID == afterStepId then
      let r := createStepLoop newStep beforeStepId afterStepId rest (i + 1) (some (i + 1))
      (org :: newStep :: r.1, r.2)
    else
      let r := createStepLoop newStep beforeStepId afterStepId rest (i + 1) idx
      (org :: r.1, r.2)

/-- In-memory splice of `resourceDeploymentStepCreate`
(resource_deployment_step.go, lines 164-185): the loop followed by the
append-at-end fallback.  Returns the rebuilt step list together with
`newStepAddedIndex`. -/
def createStepSplice (steps : List DeploymentStep) (newStep : DeploymentStep)
    (beforeStepId afterStepId : String) : List DeploymentStep × Nat :=
  let r := createStepLoop newStep beforeStepId afterStepId steps 0 none
  match r.2 with
  | some i => (r.1, i)
  | none => (r.1 ++ [newStep], r.1.length)

/-- Loop of `resourceDeploymentStepUpdate` (resource_deployment_step.go,
lines 273-287): as the create loop, but an original step whose `ID` equals
`stepId` (the edited step) is not copied into the rebuilt list. -/
def updateStepLoop (newStep : DeploymentStep) (stepId beforeStepId afterStepId : String) :
    List DeploymentStep → Nat → Option Nat → List DeploymentStep × Option Nat
  | [], _, idx => ([], idx)
  | org :: rest, i, idx =>
    if idx.isNone && org.ID == beforeStepId then
      let r := updateStepLoop newStep stepId beforeStepId afterStepId rest (i + 1) (some i)
      (newStep :: (if org.ID != stepId then org :: r.1 else r.1), r.2)
    else if org.ID != stepId then
      if idx.isNone && org.ID == afterStepId then
        let r := updateStepLoop newStep stepId beforeStepId afterStepId rest (i + 1) (some (i + 1))
        (org :: newStep :: r.1, r.2)
      else
        let r := updateStepLoop newStep stepId beforeStepId afterStepId rest (i + 1) idx
        (org :: r.1, r.2)
    else
      if idx.isNone && org.ID == afterStepId then
        let r := updateStepLoop newStep stepId beforeStepId afterStepId rest (i + 1) (some (i + 1))
        (newStep :: r.1, r.2)
      else
        updateStepLoop newStep stepId beforeStepId afterStepId rest (i + 1) idx

/-- In-memory splice of `resourceDeploymentStepUpdate`
(resource_deployment_step.go, lines 269-292): the loop followed by the
append-at-end fallback. -/
def updateStepSplice (steps : List DeploymentStep) (newStep : DeploymentStep)
    (stepId beforeStepId afterStepId : String) : List DeploymentStep × Nat :=
  let r := updateStepLoop newStep stepId beforeStepId afterStepId steps 0 none
  match r.2 with
  | some i => (r.1, i)
  | none => (r.1 ++ [newStep], r.1.length)

/-- Removal loop of `resourceDeploymentStepDelete`
(resource_deployment_step.go, lines 324-331): keep exactly the steps whose
`ID` differs from `stepId`. -/
def deleteStepsLoop : List DeploymentStep → String → List DeploymentStep
  | [], _ => []
  | org :: rest, stepId =>
    if org.ID != stepId then org :: deleteStepsLoop rest stepId
    else deleteStepsLoop rest stepId

/-- Declarative insertion point of the create loop: the first step (in scan
order) whose id matches the before reference or the after reference, the
before reference being tested first on each step.  `true` marks a
before-match (insert at that index), `false` an after-match (insert just
after that index). -/
def insPoint (beforeStepId afterStepId : String) : List DeploymentStep → Option (Nat × Bool)
  | [] => none
  | s :: rest =>
    if s.ID == beforeStepId then some (0, true)
    else if s.ID == afterStepId then some (0, false)
    else (insPoint beforeStepId afterStepId rest).map (fun p => (p.1 + 1, p.2))

/-- Insertion index exactly as the specification words it: if the before
reference matches a step anywhere in the list, immediately before that step;
otherwise if the after reference matches, immediately after it; otherwise at
the end. -/
def specInsertIndex (steps : List DeploymentStep) (beforeStepId afterStepId : String) : Nat :=
  match steps.findIdx? (fun s => s.ID == beforeStepId) with
  | some j => j
  | none =>
    match steps.findIdx? (fun s => s.ID == afterStepId) with
    | some j => j + 1
    | none => steps.length

/-- List produced by the specification's insertion rule. -/
def specSplice (steps : List DeploymentStep) (newStep : DeploymentStep)
    (beforeStepId afterStepId : String) : List DeploymentStep :=
  steps.take (specInsertIndex steps beforeStepId afterStepId) ++
    newStep :: steps.drop (specInsertIndex steps beforeStepId afterStepId)

/-- Step constant used in concrete evaluations. -/
def stepA : DeploymentStep := { ID := "A", Name := "step A" }

/-- Step constant used in concrete evaluations. -/
def stepB : DeploymentStep := { ID := "B", Name := "step B" }

/-- Step constant used in concrete evaluations. -/
def stepC : DeploymentStep := { ID := "C", Name := "step C" }

/-- New-step constant used in concrete evaluations. -/
def stepN : DeploymentStep := { ID := "N", Name := "new step" }

/-- Once `newStepAddedIndex` is set, the create loop only copies the
remaining steps. -/
theorem createStepLoop_some (n : DeploymentStep) (b a : String) :
    ∀ (L : List DeploymentStep) (i j : Nat),
      createStepLoop n b a L i (some j) = (L, some j) := by
  intro L
  induction L with
  | nil => intro i j; rfl
  | cons s rest ih =>
    intro i j
    simp [createStepLoop, ih]

/-- While `newStepAddedIndex` is unset, the create loop splices the new step
at the declarative first-match insertion point. -/
theorem createStepLoop_none (n : DeploymentStep) (b a : String) :
    ∀ (L : List DeploymentStep) (i : Nat),
      createStepLoop n b a L i none =
        match insPoint b a L with
        | none => (L, none)
        | some (k, true) => (L.take k ++ n :: L.drop k, some (i + k))
        | some (k, false) => (L.take (k + 1) ++ n :: L.drop (k + 1), some (i + k + 1)) := by
  intro L
  induction L with
  | nil => intro i; rfl
  | cons s rest ih =>
    intro i
    cases hb : s.ID == b
    · cases ha : s.ID == a
      · simp only [createStepLoop, insPoint, hb, ha, Bool.and_false, Option.isNone_none,
          Bool.true_and, if_false, cond_false]
        rw [ih (i + 1)]
        cases hp : insPoint b a rest with
        | none => simp
        | some p =>
          obtain ⟨k, dir⟩ := p
          cases dir <;>
            simp [List.take_succ_cons, List.drop_succ_cons, Nat.add_assoc, Nat.add_comm 1 k]
      · simp [createStepLoop, insPoint, hb, ha, createStepLoop_some]
    · simp [createStepLoop, insPoint, hb, createStepLoop_some]

/-- The create splice, characterised by the declarative first-match insertion
point: before-match inserts at the matched index, after-match just past it,
no match appends at the end. -/
theorem createStepSplice_list_eq (L : List DeploymentStep) (n : DeploymentStep) (b a : String) :
    (createStepSplice L n b a).1 =
      match insPoint b a L with
      | none => L ++ [n]
      | some (k, true) => L.take k ++ n :: L.drop k
      | some (k, false) => L.take (k + 1) ++ n :: L.drop (k + 1) := by
  unfold createStepSplice
  rw [createStepLoop_none]
  cases hp : insPoint b a L with
  | none => simp
  | some p =>
    obtain ⟨k, dir⟩ := p
    cases dir <;> simp

/-- The declarative insertion point always lies inside the scanned list. -/
theorem insPoint_lt_length (b a : String) :
    ∀ (L : List DeploymentStep) (k : Nat) (dir : Bool),
      insPoint b a L = some (k, dir) → k < L.length := by
  intro L
  induction L with
  | nil => intro k dir h; simp [insPoint] at h
  | cons s rest ih =>
    intro k dir h
    simp only [insPoint] at h
    split at h
    · obtain ⟨rfl, rfl⟩ := by simpa using h
      simp
    · split at h
      · obtain ⟨rfl, rfl⟩ := by simpa using h
        simp
      · rcases Option.map_eq_some'.mp h with ⟨⟨k0, d0⟩, hp, he⟩
        have h1 : k0 + 1 = k := by simpa using congrArg Prod.fst he
        have h2 := ih k0 d0 hp
        simp only [List.length_cons]
        omega

/-- When the first step matching the before reference comes no later than the
first step matching the after reference, the first-match scan resolves to the
before reference. -/
theorem insPoint_before_first (b a : String) :
    ∀ (L : List DeploymentStep) (ib ia : Nat),
      L.findIdx? (fun s => s.ID == b) = some ib →
      L.findIdx? (fun s => s.ID == a) = some ia →
      ib ≤ ia →
      insPoint b a L = some (ib, true) := by
  intro L
  induction L with
  | nil => intro ib ia hb ha hle; simp at hb
  | cons s rest ih =>
    intro ib ia hb ha hle
    rw [List.findIdx?_cons] at hb ha
    cases hsb : s.ID == b
    · rw [hsb, if_neg (by decide), List.findIdx?_succ] at hb
      rcases Option.map_eq_some'.mp hb with ⟨jb, hjb, rfl⟩
      cases hsa : s.ID == a
      · rw [hsa, if_neg (by decide), List.findIdx?_succ] at ha
        rcases Option.map_eq_some'.mp ha with ⟨ja, hja, rfl⟩
        have hrec := ih jb ja hjb hja (by omega)
        simp [insPoint, hsb, hsa, hrec]
      · rw [hsa, if_pos rfl] at ha
        simp only [Option.some.injEq] at ha
        omega
    · rw [hsb, if_pos rfl] at hb
      simp only [Option.some.injEq] at hb
      subst hb
      simp [insPoint, hsb]

/-- C1.  Counterexample: with steps A, B, C, before reference "C" and after
reference "A", the create splice inserts after A (the first match in scan
order), not before C as the claimed rule demands. -/
theorem createSplice_spec_rule_counterexample :
    (createStepSplice [stepA, stepB, stepC] stepN "C" "A").1
      ≠ specSplice [stepA, stepB, stepC] stepN "C" "A" := by decide

/-- C1 (amended).  The create splice places the new step at the position of
the first step, in scan order, whose id matches the before reference or the
after reference — before that step when the before reference matched (the
before reference is tested first on each step), after it when the after
reference matched — and appends at the end when neither reference matches. -/
theorem createSplice_first_match_rule (L : List DeploymentStep) (n : DeploymentStep)
    (b a : String) :
    (createStepSplice L n b a).1 =
      match insPoint b a L with
      | none => L ++ [n]
      | some (k, true) => L.take k ++ n :: L.drop k
      | some (k, false) => L.take (k + 1) ++ n :: L.drop (k + 1) :=
  createStepSplice_list_eq L n b a

/-- C3.  Counterexample: with steps A, B, C, before reference "C" and after
reference "A", both references match, yet the new step is not inserted
immediately before the before-matched step C (index 2). -/
theorem createSplice_both_match_counterexample :
    (List.findIdx? (fun s => s.ID == "C") [stepA, stepB, stepC] = some 2) ∧
    (List.findIdx? (fun s => s.ID == "A") [stepA, stepB, stepC] = some 0) ∧
    (createStepSplice [stepA, stepB, stepC] stepN "C" "A").1
      ≠ List.take 2 [stepA, stepB, stepC] ++ stepN :: List.drop 2 [stepA, stepB, stepC] := by
  refine ⟨by decide, by decide, by decide⟩

/-- C3 (amended).  When both references match and the first before-matched
step comes no later than the first after-matched step, the create splice
inserts the new step immediately before the before-matched step. -/
theorem createSplice_both_match_before_first (L : List DeploymentStep) (n : DeploymentStep)
    (b a : String) (ib ia : Nat)
    (hb : L.findIdx? (fun s => s.ID == b) = some ib)
    (ha : L.findIdx? (fun s => s.ID == a) = some ia)
    (hle : ib ≤ ia) :
    (createStepSplice L n b a).1 = L.take ib ++ n :: L.drop ib := by
  rw [createStepSplice_list_eq, insPoint_before_first b a L ib ia hb ha hle]

/-- Witness for the amended C3 theorem at a concrete input where both
references match and the before-matched step comes first. -/
theorem createSplice_both_match_before_first_witness :
    (createStepSplice [stepA, stepB, stepC] stepN "A" "C").1
      = List.take 0 [stepA, stepB, stepC] ++ stepN :: List.drop 0 [stepA, stepB, stepC] :=
  createSplice_both_match_before_first [stepA, stepB, stepC] stepN "A" "C" 0 2
    (by decide) (by decide) (by decide)

/-- C5.  For every original step list and all reference values, the create
splice yields the original list with the new step inserted at a single
position: length grows by exactly one, every original step is kept exactly
once in its original relative order, and the new step occurs exactly once. -/
theorem createSplice_insert_invariants (L : List DeploymentStep) (n : DeploymentStep)
    (b a : String) :
    (createStepSplice L n b a).1.length = L.length + 1 ∧
    ∃ i, i ≤ L.length ∧ (createStepSplice L n b a).1 = L.take i ++ n :: L.drop i := by
  have h := createStepSplice_list_eq L n b a
  have hex : ∃ i, i ≤ L.length ∧ (createStepSplice L n b a).1 = L.take i ++ n :: L.drop i := by
    cases hp : insPoint b a L with
    | none =>
      exact ⟨L.length, Nat.le_refl _, by simp [h, hp]⟩
    | some p =>
      obtain ⟨k, dir⟩ := p
      have hk := insPoint_lt_length b a L k dir hp
      cases dir
      · exact ⟨k + 1, by omega, by simp [h, hp]⟩
      · exact ⟨k, by omega, by simp [h, hp]⟩
  obtain ⟨i, hi, heq⟩ := hex
  refine ⟨?_, ⟨i, hi, heq⟩⟩
  rw [heq]
  simp [List.length_append, List.length_take, List.length_drop]
  omega

/-- C4.  The delete loop keeps exactly the steps whose identifier differs
from the resource's step identifier, in their original relative order, with
nothing reinserted: it is the filter by that predicate. -/
theorem deleteSteps_filter_characterization (L : List DeploymentStep) (stepId : String) :
    deleteStepsLoop L stepId = L.filter (fun s => s.ID != stepId) := by
  induction L with
  | nil => rfl
  | cons s rest ih =>
    cases h : s.ID != stepId <;> simp [deleteStepsLoop, h, ih]

/-- The update loop on the original list agrees step-for-step with the create
loop on the list with the edited step removed, as long as neither reference
equals the edited step's identifier; the numeric index registers may differ,
but their set/unset state coincides. -/
theorem updateLoop_eq_createLoop_of_delete (n : DeploymentStep) (sid b a : String)
    (hb : b ≠ sid) (ha : a ≠ sid) :
    ∀ (L : List DeploymentStep) (i j : Nat) (o p : Option Nat), o.isNone = p.isNone →
      (updateStepLoop n sid b a L i o).1
        = (createStepLoop n b a (deleteStepsLoop L sid) j p).1 ∧
      (updateStepLoop n sid b a L i o).2.isNone
        = (createStepLoop n b a (deleteStepsLoop L sid) j p).2.isNone := by
  intro L
  induction L with
  | nil =>
    intro i j o p h
    simpa [updateStepLoop, createStepLoop, deleteStepsLoop] using h
  | cons s rest ih =>
    intro i j o p h
    cases hsid : s.ID == sid
    · -- the step is kept on both sides
      have hkeep : (s.ID != sid) = true := by simp [bne, hsid]
      cases ho : o.isNone
      · -- index already set: no further insertion on either side
        have hp : p.isNone = false := by rw [← h, ho]
        have hrec := ih (i + 1) (j + 1) o p h
        simp [updateStepLoop, createStepLoop, deleteStepsLoop, hkeep, ho, hp,
          hrec.1, hrec.2]
      · have hp : p.isNone = true := by rw [← h, ho]
        cases hsb : s.ID == b
        · cases hsa : s.ID == a
          · have hrec := ih (i + 1) (j + 1) o p h
            simp [updateStepLoop, createStepLoop, deleteStepsLoop, hkeep, ho, hp,
              hsb, hsa, hrec.1, hrec.2]
          · have hrec := ih (i + 1) (j + 1) (some (i + 1)) (some (j + 1)) rfl
            simp [updateStepLoop, createStepLoop, deleteStepsLoop, hkeep, ho, hp,
              hsb, hsa, hrec.1, hrec.2]
        · have hrec := ih (i + 1) (j + 1) (some i) (some j) rfl
          simp [updateStepLoop, createStepLoop, deleteStepsLoop, hkeep, ho, hp,
            hsb, hrec.1, hrec.2]
    · -- the edited step: dropped by the update loop and by the delete filter,
      -- and (by the hypotheses) matching neither reference
      have hid : s.ID = sid := eq_of_beq hsid
      have hsb : (s.ID == b) = false := by
        refine beq_eq_false_iff_ne.mpr ?_
        rw [hid]; exact fun e => hb e.symm
      have hsa : (s.ID == a) = false := by
        refine beq_eq_false_iff_ne.mpr ?_
        rw [hid]; exact fun e => ha e.symm
      have hkeep : (s.ID != sid) = false := by simp [bne, hsid]
      have hrec := ih (i + 1) j o p h
      simp [updateStepLoop, deleteStepsLoop, hsb, hsa, hkeep, hrec.1, hrec.2]

/-- C2.  Counterexample: when the before reference equals the edited step's
own identifier, the update splice keeps the step at its old position instead
of removing it and re-running the insertion rule (which would append). -/
theorem updateSplice_self_reference_counterexample :
    (updateStepSplice [{ ID := "S" }, stepB] { ID := "S", Name := "v2" } "S" "S" "").1
      ≠ (createStepSplice (deleteStepsLoop [{ ID := "S" }, stepB] "S")
          { ID := "S", Name := "v2" } "S" "").1 := by decide

/-- C2 (amended).  Provided neither the before reference nor the after
reference equals the edited step's own identifier, the update splice produces
exactly the list obtained by first removing the edited step and then
inserting the rebuilt step with the create handler's insertion rule. -/
theorem updateSplice_remove_then_insert (L : List DeploymentStep) (n : DeploymentStep)
    (sid b a : String) (hb : b ≠ sid) (ha : a ≠ sid) :
    (updateStepSplice L n sid b a).1
      = (createStepSplice (deleteStepsLoop L sid) n b a).1 := by
  have h := updateLoop_eq_createLoop_of_delete n sid b a hb ha L 0 0 none none rfl
  unfold updateStepSplice createStepSplice
  cases hu : (updateStepLoop n sid b a L 0 none).2 with
  | some k =>
    have hc0 : (createStepLoop n b a (deleteStepsLoop L sid) 0 none).2.isNone = false := by
      rw [← h.2, hu]; rfl
    cases hc : (createStepLoop n b a (deleteStepsLoop L sid) 0 none).2 with
    | none => rw [hc] at hc0; simp at hc0
    | some m => simp [hu, hc, h.1]
  | none =>
    have hc0 : (createStepLoop n b a (deleteStepsLoop L sid) 0 none).2.isNone = true := by
      rw [← h.2, hu]; rfl
    cases hc : (createStepLoop n b a (deleteStepsLoop L sid) 0 none).2 with
    | some m => rw [hc] at hc0; simp at hc0
    | none => simp [hu, hc, h.1]

/-- Witness for the amended C2 theorem at a concrete input whose references
differ from the edited step's identifier. -/
theorem updateSplice_remove_then_insert_witness :
    (updateStepSplice [stepA, stepB] stepN "A" "B" "").1
      = (createStepSplice (deleteStepsLoop [stepA, stepB] "A") stepN "B" "").1 :=
  updateSplice_remove_then_insert [stepA, stepB] stepN "A" "B" "" (by decide) (by decide)

/-- Errors returned by the wrapped go-octopusdeploy client.  The library is an
external collaborator; its errors are opaque values compared against the
sentinel `octopusdeploy.ErrItemNotFound`, so they are embedded as that
sentinel plus an arbitrary message. -/
inductive GoErr
  | itemNotFound
  | other (msg : String)
deriving DecidableEq

/-- Go `err.Error()`.  The sentinel's exact text is library-internal; only its
identity matters to the handlers. -/
def GoErr.message : GoErr → String
  | .itemNotFound => "item not found"
  | .other msg => msg

/-- The `octopusdeploy.Project` client struct, restricted to the fields the
handlers read. -/
structure Project where
  ID : String := ""
  DeploymentProcessID : String := ""
deriving DecidableEq

/-- The `octopusdeploy.DeploymentProcess` client struct, restricted to the
fields the handlers read or write. -/
structure DeploymentProcess where
  ID : String := ""
  Steps : List DeploymentStep := []
deriving DecidableEq

/-- The wrapped client: the three calls the deployment-step handlers make,
each returning a value or an error.  The remote behaviour is arbitrary, so
the calls are arbitrary functions. -/
structure OctopusClient where
  projectGet : String → Except GoErr Project
  deploymentProcessGet : String → Except GoErr DeploymentProcess
  deploymentProcessUpdate : DeploymentProcess → Except GoErr DeploymentProcess

/-- The Terraform `*schema.ResourceData` fields the generic handlers read
(`d.Id()` and the `d.Get(...)` keys); handler writes produce an updated
record, `d.SetId("")` being `id := ""`. -/
structure ResourceData where
  id : String := ""
  project_id : String := ""
  deployment_process_id : String := ""
  before_step_id : String := ""
  after_step_id : String := ""
deriving DecidableEq

/-- `resourceDeploymentStepCreate` (resource_deployment_step.go, lines
138-201): look up the project, fetch its deployment process, splice the
built step in, push the whole list back, then record the new ids.  A non-nil
Go error is the `Except.error` branch carrying the `fmt.Errorf` message. -/
def resourceDeploymentStepCreate (client : OctopusClient) (d : ResourceData)
    (buildDeploymentProcessStepFunc : ResourceData → DeploymentStep) :
    Except String ResourceData :=
  match client.projectGet d.project_id with
  | .error err => .error ("error loading project '" ++ d.project_id ++ "': " ++ err.message)
  | .ok project =>
    match client.deploymentProcessGet project.DeploymentProcessID with
    | .error err =>
      .error ("error reading deployment process '" ++ project.DeploymentProcessID ++ "': "
        ++ err.message)
    | .ok deploymentProcess =>
      let newDeploymentStep := buildDeploymentProcessStepFunc d
      let spliced := createStepSplice deploymentProcess.Steps newDeploymentStep
        d.before_step_id d.after_step_id
      match client.deploymentProcessUpdate { deploymentProcess with Steps := spliced.1 } with
      | .error err => .error ("error updating deployment process for project: " ++ err.message)
      | .ok updated =>
        .ok { d with deployment_process_id := updated.ID,
                     id := (updated.Steps.getD spliced.2 {}).ID }

/-- `resourceDeploymentStepRead` (resource_deployment_step.go, lines
203-240): fetch the process; on the item-not-found sentinel clear the id and
return nil; otherwise propagate the error; otherwise look for the step by id,
clearing the id when it is gone, and apply the schema setter when found. -/
def resourceDeploymentStepRead (client : OctopusClient) (d : ResourceData)
    (setSchemaFunc : ResourceData → DeploymentStep → ResourceData) :
    Except String ResourceData :=
  match client.deploymentProcessGet d.deployment_process_id with
  | .error .itemNotFound => .ok { d with id := "" }
  | .error err =>
    .error ("error reading deployment process '" ++ d.deployment_process_id ++ "': "
      ++ err.message)
  | .ok deploymentProcess =>
    match deploymentProcess.Steps.find? (fun s => s.ID == d.id) with
    | none => .ok { d with id := "" }
    | some deploymentStep => .ok (setSchemaFunc d deploymentStep)

/-- `resourceDeploymentStepUpdate` (resource_deployment_step.go, lines
242-301): fetch the process (not-found clears the id and returns nil),
rebuild the step with the resource's id, splice it in while dropping the old
copy, and push the list back. -/
def resourceDeploymentStepUpdate (client : OctopusClient) (d : ResourceData)
    (buildDeploymentProcessStepFunc : ResourceData → DeploymentStep) :
    Except String ResourceData :=
  match client.deploymentProcessGet d.deployment_process_id with
  | .error .itemNotFound => .ok { d with id := "" }
  | .error err =>
    .error ("error reading deployment process id " ++ d.deployment_process_id ++ ": "
      ++ err.message)
  | .ok deploymentProcess =>
    let newDeploymentStep := { buildDeploymentProcessStepFunc d with ID := d.id }
    let spliced := updateStepSplice deploymentProcess.Steps newDeploymentStep d.id
      d.before_step_id d.after_step_id
    match client.deploymentProcessUpdate { deploymentProcess with Steps := spliced.1 } with
    | .error err => .error ("error updating deployment process for project: " ++ err.message)
    | .ok _ => .ok d

/-- `resourceDeploymentStepDelete` (resource_deployment_step.go, lines
303-343): fetch the process (not-found clears the id and returns nil), drop
the step by id, push the list back, and clear the id. -/
def resourceDeploymentStepDelete (client : OctopusClient) (d : ResourceData) :
    Except String ResourceData :=
  match client.deploymentProcessGet d.deployment_process_id with
  | .error .itemNotFound => .ok { d with id := "" }
  | .error err =>
    .error ("error reading deployment process id " ++ d.deployment_process_id ++ ": "
      ++ err.message)
  | .ok deploymentProcess =>
    match client.deploymentProcessUpdate
        { deploymentProcess with Steps := deleteStepsLoop deploymentProcess.Steps d.id } with
    | .error err => .error ("error updating deployment process for project: " ++ err.message)
    | .ok _ => .ok { d with id := "" }

/-- Project constant used by the concrete client stubs. -/
def stubProject : Project := { ID := "project-1", DeploymentProcessID := "dp-1" }

/-- Deployment-process constant used by the concrete client stubs. -/
def stubProcess : DeploymentProcess := { ID := "dp-1", Steps := [stepA] }

/-- Resource-data constant used in concrete evaluations. -/
def d0 : ResourceData := { id := "A", project_id := "project-1", deployment_process_id := "dp-1" }

/-- Builder stub used in concrete evaluations. -/
def build0 : ResourceData → DeploymentStep := fun _ => stepN

/-- Schema-setter stub used in concrete evaluations. -/
def setF0 : ResourceData → DeploymentStep → ResourceData := fun d _ => d

/-- Client stub whose project lookup fails. -/
def projErrClient : OctopusClient :=
  { projectGet := fun _ => .error (.other "boom"),
    deploymentProcessGet := fun _ => .ok stubProcess,
    deploymentProcessUpdate := fun p => .ok p }

/-- Client stub whose deployment-process fetch fails with a generic error. -/
def procErrClient : OctopusClient :=
  { projectGet := fun _ => .ok stubProject,
    deploymentProcessGet := fun _ => .error (.other "boom"),
    deploymentProcessUpdate := fun p => .ok p }

/-- Client stub whose deployment-process update fails. -/
def updErrClient : OctopusClient :=
  { projectGet := fun _ => .ok stubProject,
    deploymentProcessGet := fun _ => .ok stubProcess,
    deploymentProcessUpdate := fun _ => .error (.other "boom") }

/-- Client stub whose deployment-process fetch returns the item-not-found
sentinel. -/
def notFoundClient : OctopusClient :=
  { projectGet := fun _ => .ok stubProject,
    deploymentProcessGet := fun _ => .error .itemNotFound,
    deploymentProcessUpdate := fun p => .ok p }

/-- Client stub whose fetched deployment process lacks the resource's step. -/
def missingStepClient : OctopusClient :=
  { projectGet := fun _ => .ok stubProject,
    deploymentProcessGet := fun _ => .ok { ID := "dp-1", Steps := [stepB] },
    deploymentProcessUpdate := fun p => .ok p }

/-- C9.  Counterexample: the deployment-process fetch in the read handler
returns the non-nil item-not-found error, yet the handler returns nil (an ok
result with the id cleared) instead of a wrapping error. -/
theorem read_swallows_not_found_counterexample :
    notFoundClient.deploymentProcessGet d0.deployment_process_id = .error GoErr.itemNotFound
    ∧ resourceDeploymentStepRead notFoundClient d0 setF0 = .ok { d0 with id := "" } :=
  ⟨rfl, rfl⟩

/-- C9 (amended).  The create handler wraps and returns every client error
(project lookup, process fetch, process update); the read, update and delete
handlers do the same except that an item-not-found error from the
deployment-process fetch is not propagated (they clear the id and return
nil, as stated by C10). -/
theorem handlers_propagate_client_errors (client : OctopusClient) (d : ResourceData)
    (build : ResourceData → DeploymentStep)
    (setF : ResourceData → DeploymentStep → ResourceData) :
    (∀ e, client.projectGet d.project_id = .error e →
        resourceDeploymentStepCreate client d build =
          .error ("error loading project '" ++ d.project_id ++ "': " ++ e.message))
    ∧ (∀ p e, client.projectGet d.project_id = .ok p →
        client.deploymentProcessGet p.DeploymentProcessID = .error e →
        resourceDeploymentStepCreate client d build =
          .error ("error reading deployment process '" ++ p.DeploymentProcessID ++ "': "
            ++ e.message))
    ∧ (∀ p dp e, client.projectGet d.project_id = .ok p →
        client.deploymentProcessGet p.DeploymentProcessID = .ok dp →
        client.deploymentProcessUpdate
            { dp with
                Steps := (createStepSplice dp.Steps (build d) d.before_step_id d.after_step_id).1 }
          = .error e →
        resourceDeploymentStepCreate client d build =
          .error ("error updating deployment process for project: " ++ e.message))
    ∧ (∀ e, e ≠ GoErr.itemNotFound →
        client.deploymentProcessGet d.deployment_process_id = .error e →
        resourceDeploymentStepRead client d setF =
          .error ("error reading deployment process '" ++ d.deployment_process_id ++ "': "
            ++ e.message))
    ∧ (∀ e, e ≠ GoErr.itemNotFound →
        client.deploymentProcessGet d.deployment_process_id = .error e →
        resourceDeploymentStepUpdate client d build =
          .error ("error reading deployment process id " ++ d.deployment_process_id ++ ": "
            ++ e.message))
    ∧ (∀ dp e, client.deploymentProcessGet d.deployment_process_id = .ok dp →
        client.deploymentProcessUpdate
            { dp with
                Steps := (updateStepSplice dp.Steps { build d with ID := d.id } d.id
                  d.before_step_id d.after_step_id).1 }
          = .error e →
        resourceDeploymentStepUpdate client d build =
          .error ("error updating deployment process for project: " ++ e.message))
    ∧ (∀ e, e ≠ GoErr.itemNotFound →
        client.deploymentProcessGet d.deployment_process_id = .error e →
        resourceDeploymentStepDelete client d =
          .error ("error reading deployment process id " ++ d.deployment_process_id ++ ": "
            ++ e.message))
    ∧ (∀ dp e, client.deploymentProcessGet d.deployment_process_id = .ok dp →
        client.deploymentProcessUpdate { dp with Steps := deleteStepsLoop dp.Steps d.id }
          = .error e →
        resourceDeploymentStepDelete client d =
          .error ("error updating deployment process for project: " ++ e.message)) := by
  refine ⟨?_, ?_, ?_, ?_, ?_, ?_, ?_, ?_⟩
  · intro e he
    simp [resourceDeploymentStepCreate, he]
  · intro p e hp he
    simp [resourceDeploymentStepCreate, hp, he]
  · intro p dp e hp hdp hupd
    simp [resourceDeploymentStepCreate, hp, hdp, hupd]
  · intro e hne he
    cases e with
    | itemNotFound => exact absurd rfl hne
    | other m => simp [resourceDeploymentStepRead, he, GoErr.message]
  · intro e hne he
    cases e with
    | itemNotFound => exact absurd rfl hne
    | other m => simp [resourceDeploymentStepUpdate, he, GoErr.message]
  · intro dp e hdp hupd
    simp [resourceDeploymentStepUpdate, hdp, hupd]
  · intro e hne he
    cases e with
    | itemNotFound => exact absurd rfl hne
    | other m => simp [resourceDeploymentStepDelete, he, GoErr.message]
  · intro dp e hdp hupd
    simp [resourceDeploymentStepDelete, hdp, hupd]

/-- Witness for the amended C9 theorem: every conjunct instantiated at a
concrete client stub producing the corresponding error. -/
theorem handlers_propagate_client_errors_witness :
    resourceDeploymentStepCreate projErrClient d0 build0 =
      .error "error loading project 'project-1': boom"
    ∧ resourceDeploymentStepCreate procErrClient d0 build0 =
      .error "error reading deployment process 'dp-1': boom"
    ∧ resourceDeploymentStepCreate updErrClient d0 build0 =
      .error "error updating deployment process for project: boom"
    ∧ resourceDeploymentStepRead procErrClient d0 setF0 =
      .error "error reading deployment process 'dp-1': boom"
    ∧ resourceDeploymentStepUpdate procErrClient d0 build0 =
      .error "error reading deployment process id dp-1: boom"
    ∧ resourceDeploymentStepUpdate updErrClient d0 build0 =
      .error "error updating deployment process for project: boom"
    ∧ resourceDeploymentStepDelete procErrClient d0 =
      .error "error reading deployment process id dp-1: boom"
    ∧ resourceDeploymentStepDelete updErrClient d0 =
      .error "error updating deployment process for project: boom" := by
  refine ⟨?_, ?_, ?_, ?_, ?_, ?_, ?_, ?_⟩
  · exact (handlers_propagate_client_errors projErrClient d0 build0 setF0).1
      (.other "boom") rfl
  · exact (handlers_propagate_client_errors procErrClient d0 build0 setF0).2.1
      stubProject (.other "boom") rfl rfl
  · exact (handlers_propagate_client_errors updErrClient d0 build0 setF0).2.2.1
      stubProject stubProcess (.other "boom") rfl rfl rfl
  · exact (handlers_propagate_client_errors procErrClient d0 build0 setF0).2.2.2.1
      (.other "boom") (by decide) rfl
  · exact (handlers_propagate_client_errors procErrClient d0 build0 setF0).2.2.2.2.1
      (.other "boom") (by decide) rfl
  · exact (handlers_propagate_client_errors updErrClient d0 build0 setF0).2.2.2.2.2.1
      stubProcess (.other "boom") rfl rfl
  · exact (handlers_propagate_client_errors procErrClient d0 build0 setF0).2.2.2.2.2.2.1
      (.other "boom") (by decide) rfl
  · exact (handlers_propagate_client_errors updErrClient d0 build0 setF0).2.2.2.2.2.2.2
      stubProcess (.other "boom") rfl rfl

/-- C10.  When the deployment-process fetch reports item-not-found, the read,
update and delete handlers clear the resource id and return nil; the read
handler does the same when the fetched process has no step with the
resource's identifier. -/
theorem handlers_not_found_clear_id (client : OctopusClient) (d : ResourceData)
    (build : ResourceData → DeploymentStep)
    (setF : ResourceData → DeploymentStep → ResourceData) :
    (client.deploymentProcessGet d.deployment_process_id = .error .itemNotFound →
        resourceDeploymentStepRead client d setF = .ok { d with id := "" })
    ∧ (∀ dp, client.deploymentProcessGet d.deployment_process_id = .ok dp →
        (∀ s ∈ dp.Steps, s.ID ≠ d.id) →
        resourceDeploymentStepRead client d setF = .ok { d with id := "" })
    ∧ (client.deploymentProcessGet d.deployment_process_id = .error .itemNotFound →
        resourceDeploymentStepUpdate client d build = .ok { d with id := "" })
    ∧ (client.deploymentProcessGet d.deployment_process_id = .error .itemNotFound →
        resourceDeploymentStepDelete client d = .ok { d with id := "" }) := by
  refine ⟨?_, ?_, ?_, ?_⟩
  · intro he
    simp [resourceDeploymentStepRead, he]
  · intro dp hdp hno
    have hfind : dp.Steps.find? (fun s => s.ID == d.id) = none :=
      List.find?_eq_none.mpr (fun x hx => by simpa using hno x hx)
    simp [resourceDeploymentStepRead, hdp, hfind]
  · intro he
    simp [resourceDeploymentStepUpdate, he]
  · intro he
    simp [resourceDeploymentStepDelete, he]

/-- Witness for the C10 theorem: every conjunct instantiated at a concrete
client stub. -/
theorem handlers_not_found_clear_id_witness :
    resourceDeploymentStepRead notFoundClient d0 setF0 = .ok { d0 with id := "" }
    ∧ resourceDeploymentStepRead missingStepClient d0 setF0 = .ok { d0 with id := "" }
    ∧ resourceDeploymentStepUpdate notFoundClient d0 build0 = .ok { d0 with id := "" }
    ∧ resourceDeploymentStepDelete notFoundClient d0 = .ok { d0 with id := "" } := by
  refine ⟨?_, ?_, ?_, ?_⟩
  · exact (handlers_not_found_clear_id notFoundClient d0 build0 setF0).1 rfl
  · exact (handlers_not_found_clear_id missingStepClient d0 build0 setF0).2.1
      { ID := "dp-1", Steps := [stepB] } rfl (by decide)
  · exact (handlers_not_found_clear_id notFoundClient d0 build0 setF0).2.2.1 rfl
  · exact (handlers_not_found_clear_id notFoundClient d0 build0 setF0).2.2.2 rfl

/-- Primitive Terraform attribute value (Go `string` or `bool` stored in a
`map[string]interface{}`). -/
inductive Prim
  | s (v : String)
  | b (v : Bool)
deriving DecidableEq

/-- Go `map[string]interface{}` holding primitive values, as written by the
schema setters; replace-or-add assignment like `Props`. -/
abbrev PrimMap := List (String × Prim)

/-- Go map assignment on a `PrimMap`. -/
def primMapSet (m : PrimMap) (k : String) (v : Prim) : PrimMap :=
  if m.any (fun kv => kv.1 == k) then
    m.map (fun kv => if kv.1 == k then (k, v) else kv)
  else
    m ++ [(k, v)]

/-- Go map read on a `PrimMap`. -/
def primMapGet (m : PrimMap) (k : String) : Option Prim :=
  (m.find? (fun kv => kv.1 == k)).map (fun kv => kv.2)

/-- Value passed to Terraform `d.Set`: a primitive, a list of strings, or a
list of primitive maps (script blocks, application-pool blocks). -/
inductive GoVal
  | str (v : String)
  | bool (v : Bool)
  | strList (l : List String)
  | mapList (l : List PrimMap)
deriving DecidableEq

/-- Go `strconv.FormatBool` (the repository's `formatBool` helper is not
among the provided sources; modelled from the spec as the standard
formatter producing "true"/"false"). -/
def formatBool (b : Bool) : String :=
  if b then "true" else "false"

/-- Go `strconv.ParseBool` (external library), modelled from its documented
accepted values; `none` embeds the error return. -/
def goParseBool (s : String) : Option Bool :=
  if s == "1" || s == "t" || s == "T" || s == "true" || s == "TRUE" || s == "True" then
    some true
  else if s == "0" || s == "f" || s == "F" || s == "false" || s == "FALSE" || s == "False" then
    some false
  else
    none

/-- Substring test on character lists, scanning left to right. -/
def containsSub : List Char → List Char → Bool
  | [], pat => pat.isEmpty
  | c :: t, pat => pat.isPrefixOf (c :: t) || containsSub t pat

/-- Go `strings.Contains`. -/
def goContains (s sub : String) : Bool :=
  containsSub s.toList sub.toList

/-- One `pre_deploy_script` / `deploy_script` / `post_deploy_script` block:
the `type` and `body` attributes of the script set element. -/
structure ScriptBlock where
  type : String
  body : String
deriving DecidableEq

/-- The script-related resource attributes read by the package-step property
builder; `none` embeds `d.GetOk` reporting the attribute as unset (or the
set as empty). -/
structure ScriptsConfig where
  pre_deploy_script : Option ScriptBlock := none
  deploy_script : Option ScriptBlock := none
  post_deploy_script : Option ScriptBlock := none
deriving DecidableEq

/-- `d.GetOk(scriptProp)` for the script attributes. -/
def ScriptsConfig.getOk (d : ScriptsConfig) (prop : String) : Option ScriptBlock :=
  if prop == "pre_deploy_script" then d.pre_deploy_script
  else if prop == "deploy_script" then d.deploy_script
  else if prop == "post_deploy_script" then d.post_deploy_script
  else none

/-- `resourceDeploymentStep_AddPackageProperties_DeployScript` (shared-file
revision, lines 563-614), acting on `deploymentStep.Actions[0].Properties`:
store the script body under a key whose extension encodes the script type
(PowerShell `.ps1`, CSharp `.csx`, Bash `.sh`, FSharp `.fsx`) and enable the
custom-scripts feature once. -/
def resourceDeploymentStep_AddPackageProperties_DeployScript (d : ScriptsConfig)
    (actionProps : Props) (scriptType : String) : Props :=
  let pn : String × String :=
    match scriptType with
    | "pre" => ("pre_deploy_script", "PreDeploy")
    | "deploy" => ("deploy_script", "Deploy")
    | "post" => ("post_deploy_script", "PostDeploy")
    | _ => ("", "")
  match ScriptsConfig.getOk d pn.1 with
  | none => actionProps
  | some script =>
    let scriptName :=
      match script.type with
      | "PowerShell" => pn.2 ++ ".ps1"
      | "CSharp" => pn.2 ++ ".csx"
      | "Bash" => pn.2 ++ ".sh"
      | "FSharp" => pn.2 ++ ".fsx"
      | _ => pn.2
    let ps := propsSet actionProps ("Octopus.Action.CustomScripts." ++ scriptName) script.body
    if goContains ((propsGet ps "Octopus.Action.EnabledFeatures").getD "")
        "Octopus.Features.CustomScripts" then
      ps
    else
      propsAppend ps "Octopus.Action.EnabledFeatures" ",Octopus.Features.CustomScripts"

/-- `resourceDeploymentStep_SetPackageSchema_DeployScript` (shared-file
revision, lines 704-744): probe the property bag for the script body under
the four extensions in the order `.ps1`, `.sh`, `.csx`, `.fsx`, labelling
them PowerShell, CSharp, Bash, FSharp respectively, and write the script
block back when one is found.  Result: the `d.Set` calls performed. -/
def resourceDeploymentStep_SetPackageSchema_DeployScript (actionProps : Props)
    (scriptType : String) : List (String × GoVal) :=
  let pn : String × String :=
    match scriptType with
    | "pre" => ("pre_deploy_script", "PreDeploy")
    | "deploy" => ("deploy_script", "Deploy")
    | "post" => ("post_deploy_script", "PostDeploy")
    | _ => ("", "")
  let script : Option (String × String) :=
    match propsGet actionProps ("Octopus.Action.CustomScripts." ++ pn.2 ++ ".ps1") with
    | some v => some ("PowerShell", v)
    | none =>
      match propsGet actionProps ("Octopus.Action.CustomScripts." ++ pn.2 ++ ".sh") with
      | some v => some ("CSharp", v)
      | none =>
        match propsGet actionProps ("Octopus.Action.CustomScripts." ++ pn.2 ++ ".csx") with
        | some v => some ("Bash", v)
        | none =>
          match propsGet actionProps ("Octopus.Action.CustomScripts." ++ pn.2 ++ ".fsx") with
          | some v => some ("FSharp", v)
          | none => none
  match script with
  | some tv => [(pn.1, GoVal.mapList [[("type", Prim.s tv.1), ("body", Prim.s tv.2)]])]
  | none => []

/-- One `application_pool` block (name, framework, identity, username,
password, start). -/
structure AppPoolBlock where
  name : String
  framework : String
  identity : String
  username : String
  password : String
  start : Bool
deriving DecidableEq

/-- `resourceDeploymentStep_AddIisAppPoolProperties` (shared-file revision,
lines 652-682), acting on `deploymentStep.Actions[0].Properties`: write each
application-pool field under its prefixed key; the start flag always goes to
the fixed `StartApplicationPool` key. -/
def resourceDeploymentStep_AddIisAppPoolProperties (application_pool : Option AppPoolBlock)
    (actionProps : Props) (iisType : String) : Props :=
  let propPrefix :=
    if iisType == "IISWebSite" then "Octopus.Action.IISWebSite"
    else "Octopus.Action.IISWebSite." ++ iisType
  match application_pool with
  | none => actionProps
  | some appPool =>
    let ps := propsSet actionProps (propPrefix ++ ".ApplicationPoolName") appPool.name
    let ps := propsSet ps (propPrefix ++ ".ApplicationPoolFrameworkVersion") appPool.framework
    let ps := propsSet ps (propPrefix ++ ".ApplicationPoolIdentityType") appPool.identity
    let ps := propsSet ps (propPrefix ++ ".ApplicationPoolUsername") appPool.username
    let ps := propsSet ps (propPrefix ++ ".ApplicationPoolPassword") appPool.password
    propsSet ps "Octopus.Action.IISWebSite.StartApplicationPool" (formatBool appPool.start)

/-- `resourceDeploymentStep_SetIisAppPoolSchema` (shared-file revision, lines
777-814): rebuild the `application_pool` attribute map from the property
bag.  The final branch parses `StartApplicationPool` and stores the parsed
boolean under the key "password", exactly as the source does. -/
def resourceDeploymentStep_SetIisAppPoolSchema (actionProps : Props) (iisType : String) :
    PrimMap :=
  let propPrefix :=
    if iisType == "IISWebSite" then "Octopus.Action.IISWebSite"
    else "Octopus.Action.IISWebSite." ++ iisType
  let m : PrimMap := []
  let m :=
    match propsGet actionProps (propPrefix ++ ".ApplicationPoolName") with
    | some v => primMapSet m "name" (Prim.s v)
    | none => m
  let m :=
    match propsGet actionProps (propPrefix ++ ".ApplicationPoolFrameworkVersion") with
    | some v => primMapSet m "framework" (Prim.s v)
    | none => m
  let m :=
    match propsGet actionProps (propPrefix ++ ".ApplicationPoolIdentityType") with
    | some v => primMapSet m "identity" (Prim.s v)
    | none => m
  let m :=
    match propsGet actionProps (propPrefix ++ ".ApplicationPoolUsername") with
    | some v => primMapSet m "username" (Prim.s v)
    | none => m
  let m :=
    match propsGet actionProps (propPrefix ++ ".ApplicationPoolPassword") with
    | some v => primMapSet m "password" (Prim.s v)
    | none => m
  let m :=
    match propsGet actionProps "Octopus.Action.IISWebSite.StartApplicationPool" with
    | some v =>
      match goParseBool v with
      | some bv => primMapSet m "password" (Prim.b bv)
      | none => m
    | none => m
  m

/-- Script configuration with a CSharp deploy script, used in concrete
evaluations. -/
def csharpDeploy : ScriptsConfig := { deploy_script := some { type := "CSharp", body := "echo hi" } }

/-- Script configuration with a Bash deploy script, used in concrete
evaluations. -/
def bashDeploy : ScriptsConfig := { deploy_script := some { type := "Bash", body := "echo hi" } }

/-- C6.  Evaluation at the failing inputs: building the property bag from a
CSharp deploy script and reading it back yields script type "Bash" (and a
Bash script reads back as "CSharp"), because the builder stores CSharp under
`.csx` and Bash under `.sh` while the reader labels `.sh` as CSharp and
`.csx` as Bash.  The script body survives; the type does not. -/
theorem deployScript_readback_swaps_csharp_and_bash :
    resourceDeploymentStep_SetPackageSchema_DeployScript
        (resourceDeploymentStep_AddPackageProperties_DeployScript csharpDeploy [] "deploy")
        "deploy"
      = [("deploy_script",
          GoVal.mapList [[("type", Prim.s "Bash"), ("body", Prim.s "echo hi")]])]
    ∧ resourceDeploymentStep_SetPackageSchema_DeployScript
        (resourceDeploymentStep_AddPackageProperties_DeployScript bashDeploy [] "deploy")
        "deploy"
      = [("deploy_script",
          GoVal.mapList [[("type", Prim.s "CSharp"), ("body", Prim.s "echo hi")]])] := by
  exact ⟨by decide, by decide⟩

/-- Application-pool block used in concrete evaluations. -/
def appPool0 : AppPoolBlock :=
  { name := "pool", framework := "v4.0", identity := "SpecificUser",
    username := "svc-user", password := "secret", start := true }

/-- C7.  Evaluation at the failing input: building the property bag from an
application-pool block and reading it back loses the start flag and
overwrites the password — the parsed `StartApplicationPool` boolean is
stored under the key "password", so no "start" key is ever produced and the
original password value is replaced. -/
theorem appPool_readback_start_overwrites_password :
    resourceDeploymentStep_SetIisAppPoolSchema
        (resourceDeploymentStep_AddIisAppPoolProperties (some appPool0) [] "IISWebSite")
        "IISWebSite"
      = [("name", Prim.s "pool"), ("framework", Prim.s "v4.0"),
         ("identity", Prim.s "SpecificUser"), ("username", Prim.s "svc-user"),
         ("password", Prim.b true)]
    ∧ primMapGet
        (resourceDeploymentStep_SetIisAppPoolSchema
          (resourceDeploymentStep_AddIisAppPoolProperties (some appPool0) [] "IISWebSite")
          "IISWebSite")
        "start"
      = none := by
  exact ⟨by decide, by decide⟩

/-- One `binding` block of the IIS-website resource (schema defaults from
resource_deployment_step_iis_website.go, lines 63-122). -/
structure IisBinding where
  protocol : String := "https"
  ip : String := "*"
  port : String := "*"
  host : String := ""
  thumbprint : String := ""
  cert_var : String := ""
  require_sni : Bool := false
  enable : Bool := true
deriving DecidableEq

/-- JSON escaping of one character (quote and backslash). -/
def jsonEscapeChar (c : Char) : String :=
  if c = '"' then "\\\""
  else if c = '\\' then "\\\\"
  else String.singleton c

/-- JSON string literal. -/
def goJsonString (s : String) : String :=
  "\"" ++ String.join (s.toList.map jsonEscapeChar) ++ "\""

/-- JSON object from already-rendered fields. -/
def jsonObj (fields : List String) : String :=
  "\x7b" ++ String.intercalate "," fields ++ "\x7d"

/-- Modelled from the spec: Go `encoding/json` marshalling of one
`bindingsStruct` element (an external library; `formatStrPtr` is not among
the provided sources and is modelled as wrapping the string value), with the
field names of buildIisWebsiteDeploymentStep lines 171-180. -/
def bindingJson (b : IisBinding) : String :=
  jsonObj
    [goJsonString "protocol" ++ ":" ++ goJsonString b.protocol,
     goJsonString "ipAddress" ++ ":" ++ goJsonString b.ip,
     goJsonString "port" ++ ":" ++ goJsonString b.port,
     goJsonString "host" ++ ":" ++ goJsonString b.host,
     goJsonString "thumbprint" ++ ":" ++ goJsonString b.thumbprint,
     goJsonString "certificateVariable" ++ ":" ++ goJsonString b.cert_var,
     goJsonString "requireSni" ++ ":" ++ formatBool b.require_sni,
     goJsonString "enabled" ++ ":" ++ formatBool b.enable]

/-- Modelled from the spec: `json.Marshal` of the bindings slice. -/
def goJsonMarshalBindings (arr : List IisBinding) : String :=
  "[" ++ String.intercalate "," (arr.map bindingJson) ++ "]"

/-- Binding flattening of `buildIisWebsiteDeploymentStep`
(resource_deployment_step_iis_website.go, lines 170-225): when no binding is
configured (`d.GetOk` is false on an empty list) a default http port-80
binding is used; the array is marshalled to JSON and stored under the
`Bindings` property key. -/
def buildIisWebsiteBindings (binding : List IisBinding) (actionProps : Props) : Props :=
  let bindingsArray :=
    if binding.isEmpty then
      [{ protocol := "http", ip := "*", port := "80", host := "", thumbprint := "",
         cert_var := "", require_sni := false, enable := true }]
    else binding
  propsSet actionProps "Octopus.Action.IISWebSite.Bindings" (goJsonMarshalBindings bindingsArray)

/-- `resourceDeploymentStep_SetBasicSchema` (shared-file revision, lines
687-702): the `d.Set` calls on the basic step attributes. -/
def resourceDeploymentStep_SetBasicSchema (deploymentStep : DeploymentStep) :
    List (String × GoVal) :=
  [("step_name", GoVal.str deploymentStep.Name),
   ("step_condition", GoVal.str deploymentStep.Condition.toLower),
   ("required", GoVal.bool (deploymentStep.Actions.headD {}).IsRequired),
   ("step_start_trigger", GoVal.str deploymentStep.StartTrigger)]
  ++ (match propsGet deploymentStep.Properties "Octopus.Action.TargetRoles" with
      | some targetRoles =>
        if targetRoles != "" then [("target_roles", GoVal.strList (targetRoles.splitOn ","))]
        else []
      | none => [])
  ++ (match propsGet deploymentStep.Properties "Octopus.Action.RunOnServer" with
      | some runOnServer => [("run_on_server", GoVal.str runOnServer)]
      | none => [])

/-- `resourceDeploymentStep_SetPackageSchema` (shared-file revision, lines
746-775): the `d.Set` calls on the package attributes, ending with the three
script read-backs. -/
def resourceDeploymentStep_SetPackageSchema (deploymentStep : DeploymentStep) :
    List (String × GoVal) :=
  [("feed_id",
    GoVal.str ((propsGet deploymentStep.action0Props "Octopus.Action.Package.FeedId").getD "")),
   ("package",
    GoVal.str ((propsGet deploymentStep.action0Props "Octopus.Action.Package.PackageId").getD ""))]
  ++ (match propsGet deploymentStep.action0Props
        "Octopus.Action.Package.JsonConfigurationVariablesTargets" with
      | some v => [("json_file_variable_replacement", GoVal.str v)]
      | none => [])
  ++ (match propsGet deploymentStep.action0Props
        "Octopus.Action.SubstituteInFiles.TargetFiles" with
      | some v =>
        if v != "" then [("variable_substitution_in_files", GoVal.strList (v.splitOn "\n"))]
        else []
      | none => [])
  ++ (match propsGet deploymentStep.action0Props
        "Octopus.Action.Package.AutomaticallyRunConfigurationTransformationFiles" with
      | some v =>
        match goParseBool v with
        | some bv => [("configuration_transforms", GoVal.bool bv)]
        | none => []
      | none => [])
  ++ (match propsGet deploymentStep.action0Props
        "Octopus.Action.Package.AutomaticallyUpdateAppSettingsAndConnectionStrings" with
      | some v =>
        match goParseBool v with
        | some bv => [("configuration_variables", GoVal.bool bv)]
        | none => []
      | none => [])
  ++ resourceDeploymentStep_SetPackageSchema_DeployScript deploymentStep.action0Props "pre"
  ++ resourceDeploymentStep_SetPackageSchema_DeployScript deploymentStep.action0Props "deploy"
  ++ resourceDeploymentStep_SetPackageSchema_DeployScript deploymentStep.action0Props "post"

/-- `setIisWebsiteSchema` (resource_deployment_step_iis_website.go, lines
231-277): basic, package and application-pool read-backs followed by the
web-site attributes.  The source ends with a TODO in place of expanding the
`Bindings` property, so no `binding` attribute is ever written. -/
def setIisWebsiteSchema (deploymentStep : DeploymentStep) : List (String × GoVal) :=
  resourceDeploymentStep_SetBasicSchema deploymentStep
  ++ resourceDeploymentStep_SetPackageSchema deploymentStep
  ++ [("application_pool",
      GoVal.mapList
        [resourceDeploymentStep_SetIisAppPoolSchema deploymentStep.action0Props "IISWebSite"])]
  ++ [("deployment_type",
      GoVal.str ((propsGet deploymentStep.action0Props
        "Octopus.Action.IISWebSite.DeploymentType").getD ""))]
  ++ (match propsGet deploymentStep.action0Props "Octopus.Action.IISWebSite.WebRootType" with
      | some v => [("path_type", GoVal.str v)]
      | none => [])
  ++ (match propsGet deploymentStep.action0Props "Octopus.Action.IISWebSite.PhysicalPath" with
      | some v => [("relative_path", GoVal.str v)]
      | none => [])
  ++ (match propsGet deploymentStep.action0Props "Octopus.Action.IISWebSite.StartWebSite" with
      | some v =>
        match goParseBool v with
        | some bv => [("start_web_site", GoVal.bool bv)]
        | none => []
      | none => [])
  ++ (match propsGet deploymentStep.action0Props "Octopus.Action.IISWebSite.WebSiteName" with
      | some v => [("website_name", GoVal.str v)]
      | none => [])
  ++ (match propsGet deploymentStep.action0Props
        "Octopus.Action.IISWebSite.EnableAnonymousAuthentication" with
      | some v =>
        match goParseBool v with
        | some bv => [("anonymous_authentication", GoVal.bool bv)]
        | none => []
      | none => [])
  ++ (match propsGet deploymentStep.action0Props
        "Octopus.Action.IISWebSite.EnableBasicAuthentication" with
      | some v =>
        match goParseBool v with
        | some bv => [("basic_authentication", GoVal.bool bv)]
        | none => []
      | none => [])
  ++ (match propsGet deploymentStep.action0Props
        "Octopus.Action.IISWebSite.EnableWindowsAuthentication" with
      | some v =>
        match goParseBool v with
        | some bv => [("windows_authentication", GoVal.bool bv)]
        | none => []
      | none => [])

/-- Replacing a present key leaves the first matching entry rewritten to the
new binding, so a subsequent lookup finds it. -/
theorem find?_map_set (k v : String) :
    ∀ ps : Props, ps.any (fun kv => kv.1 == k) = true →
      (ps.map (fun kv => if kv.1 == k then (k, v) else kv)).find? (fun kv => kv.1 == k)
        = some (k, v) := by
  intro ps
  induction ps with
  | nil => intro h; simp at h
  | cons x rest ih =>
    intro h
    cases hx : x.1 == k
    · have hrest : rest.any (fun kv => kv.1 == k) = true := by
        simpa [List.any_cons, hx] using h
      rw [List.map_cons, if_neg (by simp [hx]),
        List.find?_cons_of_neg _ (by simp [hx]), ih hrest]
    · rw [List.map_cons, if_pos hx, List.find?_cons_of_pos _ (by simp)]

/-- Go map assignment followed by a read of the same key returns the
assigned value. -/
theorem propsGet_propsSet_self (ps : Props) (k v : String) :
    propsGet (propsSet ps k v) k = some v := by
  unfold propsGet propsSet
  cases h : ps.any (fun kv => kv.1 == k)
  · rw [if_neg (by simp [h]), List.find?_append]
    have hnone : ps.find? (fun kv => kv.1 == k) = none := by
      refine List.find?_eq_none.mpr (fun x hx hpx => ?_)
      have : ps.any (fun kv => kv.1 == k) = true := List.any_eq_true.mpr ⟨x, hx, hpx⟩
      rw [h] at this
      exact absurd this (by simp)
    rw [hnone]
    simp [List.find?]
  · rw [if_pos rfl, find?_map_set k v ps h]
    rfl

/-- The script read-back only ever writes a script attribute, never the
`binding` attribute. -/
theorem setPackageSchema_DeployScript_no_binding (actionProps : Props) (scriptType : String) :
    (resourceDeploymentStep_SetPackageSchema_DeployScript actionProps scriptType).all
      (fun kv => kv.1 != "binding") = true := by
  simp only [resourceDeploymentStep_SetPackageSchema_DeployScript]
  repeat' split
  all_goals rfl

/-- The basic-schema read-back never writes the `binding` attribute. -/
theorem setBasicSchema_no_binding (deploymentStep : DeploymentStep) :
    (resourceDeploymentStep_SetBasicSchema deploymentStep).all
      (fun kv => kv.1 != "binding") = true := by
  simp only [resourceDeploymentStep_SetBasicSchema, List.all_append]
  repeat' split
  all_goals rfl

/-- The package-schema read-back never writes the `binding` attribute. -/
theorem setPackageSchema_no_binding (deploymentStep : DeploymentStep) :
    (resourceDeploymentStep_SetPackageSchema deploymentStep).all
      (fun kv => kv.1 != "binding") = true := by
  simp only [resourceDeploymentStep_SetPackageSchema, List.all_append,
    setPackageSchema_DeployScript_no_binding, Bool.and_true]
  repeat' split
  all_goals rfl

/-- C8.  The build side always serialises the binding list into the
`Octopus.Action.IISWebSite.Bindings` property, but the IIS-website schema
read-back never writes any `binding` attribute (its binding expansion is an
unimplemented TODO), so the binding mapping is not bidirectional. -/
theorem iisWebsite_bindings_not_restored :
    (∀ (binding : List IisBinding) (actionProps : Props),
        (propsGet (buildIisWebsiteBindings binding actionProps)
          "Octopus.Action.IISWebSite.Bindings").isSome = true)
    ∧ (∀ deploymentStep : DeploymentStep,
        (setIisWebsiteSchema deploymentStep).all (fun kv => kv.1 != "binding") = true) := by
  constructor
  · intro binding actionProps
    unfold buildIisWebsiteBindings
    rw [propsGet_propsSet_self]
    rfl
  · intro deploymentStep
    simp only [setIisWebsiteSchema, List.all_append, setBasicSchema_no_binding,
      setPackageSchema_no_binding, Bool.true_and]
    repeat' split
    all_goals rfl

end OctopusDeploy
